import Mathlib

/-
Verification of the simpleforce Salesforce REST client.

The definitions below are a shallow embedding of the Go sources:
  * the newer client (HTTPClient, NewHTTPClient, Query, CreateSObject,
    GetSObject, UpdateSObject, DeleteSObject, request, makeURL, DownloadFile)
    from the unnamed source file;
  * the older client (ForceHTTPClient, its makeURL) from force.go.

HTTP transport is modelled by an injected oracle function (the http.Client
collaborator), JSON decoding of response bodies by injected decode oracles,
and the filesystem by an explicit event list.  The SObject record type and
the error values are not present under src/ (only their callers are), so
those definitions are modelled from the spec and marked as such.
-/

/-- JSON-style dynamic value stored in a record's field bag (spec section 3:
string, number, boolean, null, nested object, or list). -/
inductive JVal where
  | str (s : String)
  | num (n : Int)
  | bool (b : Bool)
  | null
  | obj (fields : List (String × JVal))
  | arr (elems : List JVal)

/-- Modelled from the spec: the GenericRecord (SObject) of the missing SObject
source file; spec section 3: a type name, an id (empty string means no
identifier yet), and a schema-free field bag. -/
structure SObject where
  type : String
  id : String
  fields : List (String × JVal)

/-- Modelled from the spec: SetID mutates the identifier (spec section 4.1,
set-id); in Go the record is updated in place, here the updated record is
returned. -/
def SObject.SetID (s : SObject) (v : String) : SObject :=
  { s with id := v }

/-- Go map indexing over the field bag, as an association-list lookup. -/
def lookupField : List (String × JVal) → String → Option JVal
  | [], _ => none
  | (k, v) :: rest, name => if k = name then some v else lookupField rest name

/-- Modelled from the spec: makeCopy (redacted-copy) of the missing SObject
source file; spec section 4.1: returns a new value containing all fields
except those whose name is in the exclusion set (case-sensitive exact match);
does not mutate the receiver (it is a pure function here). -/
def SObject.makeCopy (s : SObject) (blacklistedFields : List String) : List (String × JVal) :=
  s.fields.filter (fun kv => !(blacklistedFields.contains kv.fst))

/-- Modelled from the spec: the error taxonomy (spec section 7); the errors
source file is absent from src/.  errFailure is the generic failure marker
(ErrFailure), salesforce is the DomainError carrying the HTTP status code and
the raw server body produced by parseSalesforceError. -/
inductive SfError where
  | errFailure
  | transport (msg : String)
  | decodeFailed (msg : String)
  | salesforce (status : Nat) (body : List Nat)
deriving DecidableEq

/-- Modelled from the spec: parseSalesforceError (errors source file absent
from src/); spec section 7: the normalized DomainError must carry the HTTP
status code and the server error payload. -/
def parseSalesforceError (status : Nat) (body : List Nat) : SfError :=
  SfError.salesforce status body

/-- http.Header, modelled as an association list of header name and value. -/
def Header := List (String × String)

/-- Header.Get: first value for the name, or the empty string when absent. -/
def Header.get : Header → String → String
  | [], _ => ""
  | (k, v) :: rest, name => if k = name then v else Header.get rest name

/-- Header.Set: replace the value for the name, or append it. -/
def Header.set : Header → String → String → Header
  | [], name, v => [(name, v)]
  | (k, w) :: rest, name, v =>
    if k = name then (name, v) :: rest else (k, w) :: Header.set rest name v

/-- An outbound HTTP request: method, URL, headers, and the JSON payload
object (None for body-less requests). -/
structure HttpRequest where
  method : String
  url : String
  header : Header
  body : Option (List (String × JVal))

/-- An HTTP response: the status code and the bytes remaining in the body
stream. -/
structure HttpResponse where
  statusCode : Nat
  unread : List Nat

/-- Outcome of httpClient.Do: a transport error, or a response with a status
code and full body bytes. -/
inductive DoResult where
  | err (e : SfError)
  | ok (status : Nat) (body : List Nat)

/-- The (res, err) pair returned by the shared request helper: (nil, err) for
transport errors, (res, err) for non-2xx statuses, (res, nil) on 2xx. -/
inductive RequestResult where
  | err (e : SfError)
  | errWithRes (res : HttpResponse) (e : SfError)
  | ok (res : HttpResponse)

/-- Header logic of the request helper: nil headers become an empty Header,
and Content-Type defaults to application/json when Get returns empty. -/
def effectiveHeaders (headers : Option Header) : Header :=
  let hs : Header := match headers with
    | none => []
    | some hs => hs
  if (Header.get hs "Content-Type").length = 0 then
    Header.set hs "Content-Type" "application/json"
  else hs

/-- The http.Request assembled by the request helper before Do is called. -/
def buildRequest (method url : String) (body : Option (List (String × JVal)))
    (headers : Option Header) : HttpRequest :=
  { method := method, url := url, header := effectiveHeaders headers, body := body }

/-- The newer HTTPClient (unnamed source file): base URL and API version; the
injected http.Client is the send oracle passed to each operation. -/
structure HTTPClient where
  baseURL : String
  apiVersion : String

/-- strings.TrimSuffix(baseURL, "/"): removes one trailing '/' if present. -/
def trimTrailingSlash (s : String) : String :=
  if s.data.getLast? = some '/' then String.mk s.data.dropLast else s

/-- NewHTTPClient: trims "/" from the end of baseURL and stores baseURL and
apiVersion. -/
def NewHTTPClient (baseURL apiVersion : String) : HTTPClient :=
  { baseURL := trimTrailingSlash baseURL, apiVersion := apiVersion }

/-- makeURL of the newer client: baseURL, "/services/data/", apiVersion, "/",
then the resource path. -/
def HTTPClient.makeURL (h : HTTPClient) (url : String) : String :=
  h.baseURL ++ "/services/data/" ++ h.apiVersion ++ "/" ++ url

/-- The shared request helper: builds the request with default headers,
dispatches it through the send oracle, and on a non-2xx status reads the whole
body, parses it into an error, restores the body, and returns both.  The
request that was dispatched is returned alongside. -/
def HTTPClient.request (h : HTTPClient) (method url : String)
    (body : Option (List (String × JVal))) (headers : Option Header)
    (send : HttpRequest → DoResult) : RequestResult × HttpRequest :=
  let req := buildRequest method url body headers
  match send req with
  | DoResult.err e => (RequestResult.err e, req)
  | DoResult.ok status bodyBytes =>
    if status < 200 ∨ 300 ≤ status then
      -- io.ReadAll(res.Body) consumes the stream ...
      let readBytes := bodyBytes
      let consumed : HttpResponse := { statusCode := status, unread := [] }
      -- ... the error is parsed from the bytes read ...
      let e := parseSalesforceError status readBytes
      -- ... and res.Body is replaced by a buffer holding those bytes again.
      let restored : HttpResponse := { consumed with unread := readBytes }
      (RequestResult.errWithRes restored e, req)
    else (RequestResult.ok { statusCode := status, unread := bodyBytes }, req)

/-- Response payload of the create endpoint. -/
structure createSObjectResponse where
  id : String
  success : Bool

/-- Result of a record operation: the returned error value, the record as it
stands after the call, and the HTTP requests that were dispatched. -/
structure CallResult where
  result : Except SfError Unit
  record : SObject
  requests : List HttpRequest

/-- The POST request CreateSObject dispatches. -/
def createRequest (h : HTTPClient) (sobj : SObject) (blacklistedFields : List String) :
    HttpRequest :=
  buildRequest "POST" (h.makeURL ("sobjects/" ++ sobj.type ++ "/"))
    (some (sobj.makeCopy blacklistedFields)) none

/-- CreateSObject: validates the type, POSTs the redacted copy, decodes the
response through the decode oracle, and assigns the returned id only after
the success check. -/
def HTTPClient.CreateSObject (h : HTTPClient) (sobj : SObject)
    (blacklistedFields : List String) (send : HttpRequest → DoResult)
    (decodeCreate : List Nat → Except SfError createSObjectResponse) : CallResult :=
  if sobj.type = "" then ⟨Except.error SfError.errFailure, sobj, []⟩
  else
    match h.request "POST" (h.makeURL ("sobjects/" ++ sobj.type ++ "/"))
        (some (sobj.makeCopy blacklistedFields)) none send with
    | (RequestResult.err e, req) => ⟨Except.error e, sobj, [req]⟩
    | (RequestResult.errWithRes _ e, req) => ⟨Except.error e, sobj, [req]⟩
    | (RequestResult.ok res, req) =>
      match decodeCreate res.unread with
      | Except.error e => ⟨Except.error e, sobj, [req]⟩
      | Except.ok resData =>
        if resData.success = false ∨ resData.id = "" then
          ⟨Except.error SfError.errFailure, sobj, [req]⟩
        else ⟨Except.ok (), sobj.SetID resData.id, [req]⟩

/-- GetSObject: validates type and id, GETs the record endpoint, and decodes
the response into the record through the decode oracle. -/
def HTTPClient.GetSObject (h : HTTPClient) (sobj : SObject)
    (send : HttpRequest → DoResult)
    (decodeInto : List Nat → SObject → Except SfError SObject) : CallResult :=
  if sobj.type.length = 0 then ⟨Except.error SfError.errFailure, sobj, []⟩
  else if sobj.id.length = 0 then ⟨Except.error SfError.errFailure, sobj, []⟩
  else
    match h.request "GET" (h.makeURL ("sobjects/" ++ sobj.type ++ "/" ++ sobj.id))
        none none send with
    | (RequestResult.err e, req) => ⟨Except.error e, sobj, [req]⟩
    | (RequestResult.errWithRes _ e, req) => ⟨Except.error e, sobj, [req]⟩
    | (RequestResult.ok res, req) =>
      match decodeInto res.unread sobj with
      | Except.error e => ⟨Except.error e, sobj, [req]⟩
      | Except.ok newObj => ⟨Except.ok (), newObj, [req]⟩

/-- UpdateSObject: validates type and id, PATCHes the redacted copy, and
ignores the response body. -/
def HTTPClient.UpdateSObject (h : HTTPClient) (sobj : SObject)
    (blacklistedFields : List String) (send : HttpRequest → DoResult) : CallResult :=
  if sobj.type = "" then ⟨Except.error SfError.errFailure, sobj, []⟩
  else if sobj.id = "" then ⟨Except.error SfError.errFailure, sobj, []⟩
  else
    match h.request "PATCH" (h.makeURL ("sobjects/" ++ sobj.type ++ "/" ++ sobj.id))
        (some (sobj.makeCopy blacklistedFields)) none send with
    | (RequestResult.err e, req) => ⟨Except.error e, sobj, [req]⟩
    | (RequestResult.errWithRes _ e, req) => ⟨Except.error e, sobj, [req]⟩
    | (RequestResult.ok _, req) => ⟨Except.ok (), sobj, [req]⟩

/-- DeleteSObject: validates type and id, DELETEs the record endpoint, and
ignores the response. -/
def HTTPClient.DeleteSObject (h : HTTPClient) (sobj : SObject)
    (send : HttpRequest → DoResult) : CallResult :=
  if sobj.type.length = 0 then ⟨Except.error SfError.errFailure, sobj, []⟩
  else if sobj.id.length = 0 then ⟨Except.error SfError.errFailure, sobj, []⟩
  else
    match h.request "DELETE" (h.makeURL ("sobjects/" ++ sobj.type ++ "/" ++ sobj.id))
        none none send with
    | (RequestResult.err e, req) => ⟨Except.error e, sobj, [req]⟩
    | (RequestResult.errWithRes _ e, req) => ⟨Except.error e, sobj, [req]⟩
    | (RequestResult.ok _, req) => ⟨Except.ok (), sobj, [req]⟩

/-- UTF-8 encoding of one character, as Go produces when converting a string
to bytes. -/
def utf8Bytes (c : Char) : List Nat :=
  if c.toNat < 128 then [c.toNat]
  else if c.toNat < 2048 then [192 + c.toNat / 64, 128 + c.toNat % 64]
  else if c.toNat < 65536 then
    [224 + c.toNat / 4096, 128 + (c.toNat / 64) % 64, 128 + c.toNat % 64]
  else
    [240 + c.toNat / 262144, 128 + (c.toNat / 4096) % 64, 128 + (c.toNat / 64) % 64,
      128 + c.toNat % 64]

/-- The byte sequence of a Go string. -/
def stringToBytes (s : String) : List Nat :=
  s.data.flatMap utf8Bytes

/-- net/url shouldEscape for a path segment: alphanumerics, the unreserved
marks - _ . ~, and the reserved characters dollar ampersand plus colon equals
at-sign stay; slash semicolon comma question mark and everything else is
escaped. -/
def shouldEscape (b : Nat) : Bool :=
  if 97 ≤ b ∧ b ≤ 122 then false
  else if 65 ≤ b ∧ b ≤ 90 then false
  else if 48 ≤ b ∧ b ≤ 57 then false
  else if b = 45 ∨ b = 95 ∨ b = 46 ∨ b = 126 then false
  else if b = 36 ∨ b = 38 ∨ b = 43 ∨ b = 58 ∨ b = 61 ∨ b = 64 then false
  else true

/-- Upper-case hexadecimal digit used by net/url escaping. -/
def hexDigitChar (n : Nat) : Char :=
  if n < 10 then Char.ofNat (48 + n) else Char.ofNat (55 + n)

/-- Percent-escape a byte sequence using the path-segment rules. -/
def escapeBytes : List Nat → List Char
  | [] => []
  | b :: rest =>
    (if shouldEscape b then ['%', hexDigitChar (b / 16), hexDigitChar (b % 16)]
     else [Char.ofNat b]) ++ escapeBytes rest

/-- url.PathEscape as used by the Query operation. -/
def pathEscape (s : String) : String :=
  String.mk (escapeBytes (stringToBytes s))

/-- Value of one hexadecimal digit character, upper or lower case. -/
def hexVal (c : Char) : Option Nat :=
  if 48 ≤ c.toNat ∧ c.toNat ≤ 57 then some (c.toNat - 48)
  else if 97 ≤ c.toNat ∧ c.toNat ≤ 102 then some (c.toNat - 87)
  else if 65 ≤ c.toNat ∧ c.toNat ≤ 70 then some (c.toNat - 55)
  else none

/-- net/url unescaping in query-component mode: percent escapes decode to the
escaped byte, plus decodes to a space, anything else passes through; an
invalid escape is an error. -/
def unescapeBytes : List Char → Option (List Nat)
  | [] => some []
  | c :: rest =>
    if c = '%' then
      match rest with
      | a :: b :: rest2 =>
        match hexVal a, hexVal b with
        | some ha, some hb =>
          match unescapeBytes rest2 with
          | some t => some ((16 * ha + hb) :: t)
          | none => none
        | _, _ => none
      | _ => none
    else
      match unescapeBytes rest with
      | some t => some ((if c = '+' then 32 else c.toNat) :: t)
      | none => none

/-- Everything after the first occurrence of sep, none when sep is absent. -/
def afterFirst (sep : Char) : List Char → Option (List Char)
  | [] => none
  | c :: rest => if c = sep then some rest else afterFirst sep rest

/-- Everything before the first occurrence of sep (or the whole list). -/
def beforeFirst (sep : Char) : List Char → List Char
  | [] => []
  | c :: rest => if c = sep then [] else c :: beforeFirst sep rest

/-- Split a raw query string at ampersands, as net/url ParseQuery cuts it. -/
def splitAmp : List Char → List (List Char)
  | [] => []
  | c :: rest =>
    if c = '&' then [] :: splitAmp rest
    else
      match splitAmp rest with
      | [] => [[c]]
      | p :: ps => (c :: p) :: ps

/-- First value bound to the given (already byte-encoded) key among the
key=value pieces, both sides unescaped in query-component mode; pieces whose
unescaping fails are skipped, as in net/url. -/
def findParam : List (List Char) → List Nat → Option (List Nat)
  | [], _ => none
  | piece :: rest, nm =>
    match unescapeBytes (beforeFirst '=' piece) with
    | some kb =>
      if kb = nm then
        match unescapeBytes ((afterFirst '=' piece).getD []) with
        | some v => some v
        | none => findParam rest nm
      else findParam rest nm
    | none => findParam rest nm

/-- The decoded bytes of the named query parameter of a URL: the part after
the first question mark is cut at ampersands and the first piece whose key
unescapes to the name yields its unescaped value.  none when the URL has no
question mark or no such parameter. -/
def getQueryParam (url : String) (name : String) : Option (List Nat) :=
  match afterFirst '?' url.data with
  | none => none
  | some raw => findParam (splitAmp raw) (stringToBytes name)

/-- The URL the Query operation requests: the continuation URL appended to
the base URL when non-empty, otherwise the versioned query endpoint with the
path-escaped query string. -/
def queryRequestURL (h : HTTPClient) (query nextRecordsURL : String) : String :=
  h.baseURL ++
    (if 0 < nextRecordsURL.length then nextRecordsURL
     else "/services/data/" ++ h.apiVersion ++ "/query?q=" ++ pathEscape query)

/-- Response shape of the query endpoint. -/
structure QueryResult where
  totalSize : Int
  done : Bool
  nextRecordsURL : String
  records : List SObject

/-- Query: GET the continuation URL or the escaped query endpoint, then
decode the body through the decode oracle. -/
def HTTPClient.Query (h : HTTPClient) (query nextRecordsURL : String)
    (send : HttpRequest → DoResult)
    (decodeQuery : List Nat → Except SfError QueryResult) :
    Except SfError QueryResult × List HttpRequest :=
  match h.request "GET" (queryRequestURL h query nextRecordsURL) none none send with
  | (RequestResult.err e, req) => (Except.error e, [req])
  | (RequestResult.errWithRes _ e, req) => (Except.error e, [req])
  | (RequestResult.ok res, req) =>
    match decodeQuery res.unread with
    | Except.error e => (Except.error e, [req])
    | Except.ok result => (Except.ok result, [req])

/-- Filesystem events DownloadFile performs. -/
inductive FsOp where
  | create (path : String)
  | write (path : String) (bytes : List Nat)
deriving DecidableEq

/-- The headers DownloadFile sets before dispatching. -/
def downloadHeaders : Header :=
  Header.set (Header.set [] "Content-Type" "application/json; charset=UTF-8")
    "Accept" "application/json"

/-- The GET request DownloadFile dispatches. -/
def downloadRequest (h : HTTPClient) (contentVersionID : String) : HttpRequest :=
  buildRequest "GET"
    (h.baseURL ++ "/services/data/" ++ h.apiVersion ++ "/sobjects/ContentVersion/"
      ++ contentVersionID ++ "/VersionData")
    none (some downloadHeaders)

/-- DownloadFile: GET the content-version data through the shared request
helper; only when that returns without error is the destination created
(os.Create, whose outcome is the createResult oracle) and the body streamed
into it. -/
def HTTPClient.DownloadFile (h : HTTPClient) (contentVersionID filePath : String)
    (send : HttpRequest → DoResult) (createResult : Except SfError Unit) :
    Except SfError Unit × List FsOp :=
  match h.request "GET"
      (h.baseURL ++ "/services/data/" ++ h.apiVersion ++ "/sobjects/ContentVersion/"
        ++ contentVersionID ++ "/VersionData")
      none (some downloadHeaders) send with
  | (RequestResult.err e, _) => (Except.error e, [])
  | (RequestResult.errWithRes _ e, _) => (Except.error e, [])
  | (RequestResult.ok res, _) =>
    match createResult with
    | Except.error e => (Except.error e, [FsOp.create filePath])
    | Except.ok _ => (Except.ok (), [FsOp.create filePath, FsOp.write filePath res.unread])

/-- The older client of force.go: its baseURL, apiVersion and instanceURL
fields. -/
structure ForceHTTPClient where
  baseURL : String
  apiVersion : String
  instanceURL : String
deriving DecidableEq

/-- strings.Replace(s, "v", "", -1): with a one-byte pattern and an empty
replacement this removes every v character. -/
def replaceAllV (s : String) : String :=
  String.mk (s.data.filter (fun c => c ≠ 'v'))

/-- makeURL of force.go: assigns h.apiVersion = strings.Replace(h.apiVersion,
"v", "", -1) in place (state passing here), then formats the URL with the
rewritten version. -/
def ForceHTTPClient.makeURL (h : ForceHTTPClient) (req : String) :
    ForceHTTPClient × String :=
  let v := replaceAllV h.apiVersion
  let h2 := { h with apiVersion := v }
  (h2, h2.instanceURL ++ "/services/data/v" ++ v ++ "/" ++ req)

/-- Transport oracle fixture: every request gets an empty 200 response. -/
def sendOk200 : HttpRequest → DoResult := fun _ => DoResult.ok 200 []

/-- Transport oracle fixture: every request gets an empty 404 response. -/
def sendErr404 : HttpRequest → DoResult := fun _ => DoResult.ok 404 [7]

/-- Decode oracle fixture for create responses. -/
def decCreateOk : List Nat → Except SfError createSObjectResponse :=
  fun _ => Except.ok { id := "object1", success := true }

/-- Decode oracle fixture for create responses reporting failure. -/
def decCreateFail : List Nat → Except SfError createSObjectResponse :=
  fun _ => Except.ok { id := "object1", success := false }

/-- Decode oracle fixture for get responses: the decoded record. -/
def decGetFix : List Nat → SObject → Except SfError SObject :=
  fun _ s => Except.ok s

/-- Decode oracle fixture for query responses. -/
def decQueryFix : List Nat → Except SfError QueryResult :=
  fun _ => Except.ok { totalSize := 0, done := true, nextRecordsURL := "", records := [] }

/-- String append acts as list append on the underlying character data. -/
theorem strDataAppend (a b : String) : (a ++ b).data = a.data ++ b.data :=
  String.data_append a b

/-- A string has length zero exactly when it is empty. -/
theorem strLengthEqZero (s : String) : s.length = 0 ↔ s = "" := by
  constructor
  · intro h
    cases s with
    | mk l =>
      cases l with
      | nil => rfl
      | cons c cs => simp [String.length] at h
  · intro h
    subst h
    rfl

/-- afterFirst misses when the separator is absent. -/
theorem afterFirstOfNotMem (sep : Char) (l : List Char) (h : sep ∉ l) :
    afterFirst sep l = none := by
  induction l with
  | nil => rfl
  | cons c rest ih =>
    simp only [List.mem_cons, not_or] at h
    simp [afterFirst, Ne.symm h.1, ih h.2]

/-- afterFirst skips a separator-free block. -/
theorem afterFirstAppend (sep : Char) (l1 l2 : List Char) (h : sep ∉ l1) :
    afterFirst sep (l1 ++ l2) = afterFirst sep l2 := by
  induction l1 with
  | nil => rfl
  | cons c rest ih =>
    simp only [List.mem_cons, not_or] at h
    simp [afterFirst, Ne.symm h.1, ih h.2]

/-- splitAmp keeps an ampersand-free nonempty block whole. -/
theorem splitAmpOfNotMem (l : List Char) (hne : l ≠ []) (h : '&' ∉ l) :
    splitAmp l = [l] := by
  induction l with
  | nil => exact absurd rfl hne
  | cons c rest ih =>
    simp only [List.mem_cons, not_or] at h
    cases rest with
    | nil => simp [splitAmp, Ne.symm h.1]
    | cons d rest2 =>
      show splitAmp (c :: d :: rest2) = [c :: d :: rest2]
      unfold splitAmp
      rw [if_neg (Ne.symm h.1), ih (by simp) h.2]

/-- Character code of Char.ofNat on byte-sized input. -/
theorem charToNatOfNat (b : Nat) (h : b < 256) : (Char.ofNat b).toNat = b := by
  unfold Char.ofNat
  split
  · rfl
  · rename_i hv
    exact absurd (Or.inl (by omega)) hv

/-- Recover the byte from an unescaped output character. -/
theorem charOfNatEqImp (b : Nat) (c : Char) (h : b < 256)
    (he : Char.ofNat b = c) : b = c.toNat := by
  rw [← he, charToNatOfNat b h]

/-- Every character code is below the Unicode bound. -/
theorem charToNatLt (c : Char) : c.toNat < 1114112 := by
  have hv := c.valid
  rcases hv with h1 | h2
  · have : c.val.toNat < 55296 := h1
    have he : c.toNat = c.val.toNat := rfl
    omega
  · have : 57343 < c.val.toNat ∧ c.val.toNat < 1114112 := h2
    have he : c.toNat = c.val.toNat := rfl
    omega

/-- UTF-8 bytes are byte sized. -/
theorem utf8BytesLt (c : Char) (b : Nat) (hb : b ∈ utf8Bytes c) : b < 256 := by
  have hc := charToNatLt c
  unfold utf8Bytes at hb
  split at hb
  · simp at hb
    omega
  · split at hb
    · simp at hb
      rcases hb with h | h <;> omega
    · split at hb
      · simp at hb
        rcases hb with h | h | h <;> omega
      · simp at hb
        rcases hb with h | h | h | h <;> omega

/-- All bytes of a Go string are byte sized. -/
theorem stringToBytesLt (s : String) (b : Nat) (hb : b ∈ stringToBytes s) :
    b < 256 := by
  unfold stringToBytes at hb
  rcases List.mem_flatMap.mp hb with ⟨c, _, hbc⟩
  exact utf8BytesLt c b hbc

/-- hexVal inverts hexDigitChar on digit values. -/
theorem hexValHexDigitChar (n : Nat) (h : n < 16) :
    hexVal (hexDigitChar n) = some n := by
  interval_cases n <;> decide

/-- Hexadecimal digit characters are never an ampersand. -/
theorem hexDigitCharNeAmp (n : Nat) (h : n < 16) : hexDigitChar n ≠ '&' := by
  interval_cases n <;> decide

/-- Characters produced by escaping an ampersand-free byte sequence never
include an ampersand. -/
theorem ampNotMemEscapeBytes (bs : List Nat) (hlt : ∀ b ∈ bs, b < 256)
    (hamp : 38 ∉ bs) : '&' ∉ escapeBytes bs := by
  induction bs with
  | nil => simp [escapeBytes]
  | cons b rest ih =>
    have hblt : b < 256 := hlt b (by simp)
    have hrest : ∀ x ∈ rest, x < 256 := fun x hx => hlt x (by simp [hx])
    have hbamp : b ≠ 38 := by
      intro he
      exact hamp (by simp [he])
    have hrestamp : 38 ∉ rest := by
      intro hx
      exact hamp (by simp [hx])
    intro hmem
    unfold escapeBytes at hmem
    rw [List.mem_append] at hmem
    rcases hmem with h | h
    · split at h
      · rw [List.mem_cons, List.mem_cons, List.mem_cons] at h
        rcases h with h | h | h | h
        · exact absurd h (by decide)
        · exact hexDigitCharNeAmp (b / 16) (by omega) h.symm
        · exact hexDigitCharNeAmp (b % 16) (by omega) h.symm
        · simp at h
      · rw [List.mem_singleton] at h
        have hb := charOfNatEqImp b '&' hblt h.symm
        have h38 : ('&' : Char).toNat = 38 := by decide
        rw [h38] at hb
        exact hbamp hb
    · exact ih hrest hrestamp h

/-- Unescaping inverts path-segment escaping on byte sequences free of the
plus byte (net/url decodes an unescaped plus as a space in query
components). -/
theorem unescapeEscapeBytes (bs : List Nat) (hlt : ∀ b ∈ bs, b < 256)
    (hplus : 43 ∉ bs) : unescapeBytes (escapeBytes bs) = some bs := by
  induction bs with
  | nil => rfl
  | cons b rest ih =>
    have hblt : b < 256 := hlt b (by simp)
    have hrest : ∀ x ∈ rest, x < 256 := fun x hx => hlt x (by simp [hx])
    have hbplus : b ≠ 43 := by
      intro he
      exact hplus (by simp [he])
    have hrestplus : 43 ∉ rest := by
      intro hx
      exact hplus (by simp [hx])
    have ihr := ih hrest hrestplus
    unfold escapeBytes
    split
    · have h1 : hexVal (hexDigitChar (b / 16)) = some (b / 16) :=
        hexValHexDigitChar _ (by omega)
      have h2 : hexVal (hexDigitChar (b % 16)) = some (b % 16) :=
        hexValHexDigitChar _ (by omega)
      have h3 : 16 * (b / 16) + b % 16 = b := by omega
      simp [unescapeBytes, h1, h2, ihr, h3]
    · rename_i hse
      have hnp : Char.ofNat b ≠ '%' := by
        intro he
        have hb := charOfNatEqImp b '%' hblt he
        have h37 : ('%' : Char).toNat = 37 := by decide
        rw [h37] at hb
        subst hb
        exact hse (by decide)
      have hnplus : Char.ofNat b ≠ '+' := by
        intro he
        have hb := charOfNatEqImp b '+' hblt he
        have h43 : ('+' : Char).toNat = 43 := by decide
        rw [h43] at hb
        exact hbplus hb
      have htn : (Char.ofNat b).toNat = b := charToNatOfNat b hblt
      simp only [List.singleton_append]
      rw [unescapeBytes.eq_def]
      simp only []
      rw [if_neg hnp, ihr]
      simp [hnplus, htn]

/-- afterFirst finds the question mark inside the query endpoint literal. -/
theorem afterFirstQueryLit (rest : List Char) :
    afterFirst '?' ("/query?q=".data ++ rest) = some ('q' :: '=' :: rest) := rfl

theorem getQueryParamQueryURL (base v q : String)
    (hbase : '?' ∉ base.data) (hv : '?' ∉ v.data)
    (hamp : 38 ∉ stringToBytes q) (hplus : 43 ∉ stringToBytes q) :
    getQueryParam (base ++ ("/services/data/" ++ v ++ "/query?q=" ++ pathEscape q)) "q"
      = some (stringToBytes q) := by
  have hlt := stringToBytesLt q
  have hesc : '&' ∉ escapeBytes (stringToBytes q) :=
    ampNotMemEscapeBytes _ hlt hamp
  have hql : '?' ∉ "/services/data/".data := by decide
  have hurl : (base ++ ("/services/data/" ++ v ++ "/query?q=" ++ pathEscape q)).data
      = base.data ++ ("/services/data/".data ++ (v.data ++
          ("/query?q=".data ++ escapeBytes (stringToBytes q)))) := by
    simp only [strDataAppend, List.append_assoc]
    rfl
  unfold getQueryParam
  rw [hurl, afterFirstAppend _ _ _ hbase, afterFirstAppend _ _ _ hql,
      afterFirstAppend _ _ _ hv, afterFirstQueryLit]
  have hraw : '&' ∉ ('q' :: '=' :: escapeBytes (stringToBytes q)) := by
    intro h
    rw [List.mem_cons, List.mem_cons] at h
    rcases h with h | h | h
    · exact absurd h (by decide)
    · exact absurd h (by decide)
    · exact hesc h
  show findParam (splitAmp ('q' :: '=' :: escapeBytes (stringToBytes q)))
      (stringToBytes "q") = some (stringToBytes q)
  rw [splitAmpOfNotMem _ (by simp) hraw]
  unfold findParam
  rw [show beforeFirst '=' ('q' :: '=' :: escapeBytes (stringToBytes q)) = ['q'] from rfl]
  rw [show unescapeBytes ['q'] = some [113] from rfl]
  rw [show stringToBytes "q" = [113] from rfl]
  simp only [if_pos rfl]
  rw [show (afterFirst '=' ('q' :: '=' :: escapeBytes (stringToBytes q))).getD []
        = escapeBytes (stringToBytes q) from rfl]
  rw [unescapeEscapeBytes _ hlt hplus]
  simp

/-- Header.set leaves every other header name unchanged. -/
theorem headerGetSetNe (hs : Header) (name v k : String) (h : k ≠ name) :
    Header.get (Header.set hs name v) k = Header.get hs k := by
  induction hs with
  | nil => simp [Header.set, Header.get, Ne.symm h]
  | cons kv rest ih =>
    obtain ⟨k2, w⟩ := kv
    by_cases hk : k2 = name
    · subst hk
      simp [Header.set, Header.get, h, Ne.symm h]
    · simp only [Header.set, if_neg hk, Header.get]
      by_cases hk2 : k2 = k
      · simp [hk2]
      · simp [hk2, ih]

/-- Looking up a key rejected by the filter predicate misses. -/
theorem lookupFilterOfFalse (fields : List (String × JVal)) (p : String × JVal → Bool)
    (k : String) (hk : ∀ v, p (k, v) = false) :
    lookupField (fields.filter p) k = none := by
  induction fields with
  | nil => rfl
  | cons kv rest ih =>
    obtain ⟨k2, v⟩ := kv
    rw [List.filter_cons]
    by_cases hp : p (k2, v) = true
    · rw [if_pos hp]
      have hne : k2 ≠ k := by
        intro he
        subst he
        rw [hk v] at hp
        exact Bool.false_ne_true hp
      simp [lookupField, hne, ih]
    · rw [if_neg hp]
      exact ih

/-- Looking up a key accepted by the filter predicate agrees with the
source bag. -/
theorem lookupFilterOfTrue (fields : List (String × JVal)) (p : String × JVal → Bool)
    (k : String) (hk : ∀ v, p (k, v) = true) :
    lookupField (fields.filter p) k = lookupField fields k := by
  induction fields with
  | nil => rfl
  | cons kv rest ih =>
    obtain ⟨k2, v⟩ := kv
    rw [List.filter_cons]
    by_cases hp : p (k2, v) = true
    · rw [if_pos hp]
      by_cases hk2 : k2 = k
      · simp [lookupField, hk2]
      · simp [lookupField, hk2, ih]
    · rw [if_neg hp]
      have hne : k2 ≠ k := by
        intro he
        subst he
        rw [hk v] at hp
        exact hp rfl
      simp [lookupField, hne, ih]

/-- Strings with equal character data are equal. -/
theorem strExt (a b : String) (h : a.data = b.data) : a = b := by
  cases a
  cases b
  simp_all

/-- C4: the constructor strips one trailing slash from the base URL (the
stored base is the given base, or the given base minus exactly one trailing
slash), and makeURL builds every typed-resource endpoint as the stored base
followed by /services/data/, the API version verbatim, and the resource
path. -/
theorem c4_baseURL_trim_and_makeURL (base v r : String) :
    (base.data.getLast? ≠ some '/' → (NewHTTPClient base v).baseURL = base) ∧
    (base.data.getLast? = some '/' → (NewHTTPClient base v).baseURL ++ "/" = base) ∧
    (NewHTTPClient base v).apiVersion = v ∧
    (NewHTTPClient base v).makeURL r
      = (NewHTTPClient base v).baseURL ++ "/services/data/" ++ v ++ "/" ++ r := by
  refine ⟨?_, ?_, rfl, rfl⟩
  · intro hne
    show trimTrailingSlash base = base
    unfold trimTrailingSlash
    rw [if_neg hne]
  · intro hl
    show trimTrailingSlash base ++ "/" = base
    unfold trimTrailingSlash
    rw [if_pos hl]
    have hne : base.data ≠ [] := by
      intro he
      rw [he] at hl
      simp at hl
    have hlast : base.data.getLast hne = '/' := by
      have h2 := List.getLast?_eq_getLast base.data hne
      rw [hl] at h2
      exact (Option.some_inj.mp h2.symm)
    apply strExt
    rw [strDataAppend]
    show base.data.dropLast ++ ['/'] = base.data
    rw [← hlast]
    exact List.dropLast_append_getLast hne

/-- Witness for C4 at concrete inputs. -/
theorem c4_witness :
    (NewHTTPClient "https://sf.example/" "v43.0").baseURL ++ "/" = "https://sf.example/" ∧
    (NewHTTPClient "https://sf.example" "v43.0").baseURL = "https://sf.example" ∧
    (NewHTTPClient "https://sf.example" "v43.0").makeURL "sobjects/Case/"
      = (NewHTTPClient "https://sf.example" "v43.0").baseURL
          ++ "/services/data/" ++ "v43.0" ++ "/" ++ "sobjects/Case/" :=
  ⟨(c4_baseURL_trim_and_makeURL "https://sf.example/" "v43.0" "sobjects/Case/").2.1 (by decide),
   (c4_baseURL_trim_and_makeURL "https://sf.example" "v43.0" "sobjects/Case/").1 (by decide),
   (c4_baseURL_trim_and_makeURL "https://sf.example" "v43.0" "sobjects/Case/").2.2.2⟩

/-- C5 counterexample: makeURL of the older client (force.go) mutates the
stored API version: after one call with apiVersion "v43.0" the field reads
"43.0". -/
theorem c5_counterexample :
    ((ForceHTTPClient.mk "https://sf.example" "v43.0" "https://sf.example").makeURL
        "sobjects").1.apiVersion ≠ "v43.0" := by
  decide

/-- C5 amended: no operation of either client mutates the base URL or the
instance URL, and in the newer client the configuration is read-only by
construction; but makeURL of the older force.go client rewrites the stored
apiVersion to its value with every v removed, so apiVersion survives a call
exactly when it contains no v. -/
theorem c5_config_mutation (h : ForceHTTPClient) (req : String) :
    ((h.makeURL req).1.baseURL = h.baseURL) ∧
    ((h.makeURL req).1.instanceURL = h.instanceURL) ∧
    ((h.makeURL req).1.apiVersion = replaceAllV h.apiVersion) ∧
    (h.apiVersion.data.all (fun c => c ≠ 'v') = true → (h.makeURL req).1 = h) := by
  refine ⟨rfl, rfl, rfl, ?_⟩
  intro hv
  have hfix : replaceAllV h.apiVersion = h.apiVersion := by
    unfold replaceAllV
    rw [List.filter_eq_self.mpr (by simpa using List.all_eq_true.mp hv)]
  show ({ h with apiVersion := replaceAllV h.apiVersion } : ForceHTTPClient) = h
  rw [hfix]

/-- Witness for C5 amended at a v-free version string. -/
theorem c5_witness :
    ((ForceHTTPClient.mk "https://sf.example" "43.0" "https://i.example").makeURL
        "sobjects").1
      = ForceHTTPClient.mk "https://sf.example" "43.0" "https://i.example" :=
  (c5_config_mutation _ "sobjects").2.2.2 (by decide)

/-- C2: with an empty type, Create, Get, Update and Delete return the
validation failure without dispatching any HTTP request; with an empty id,
Get and Delete do the same even when the type is set. -/
theorem c2_empty_type_or_id_validates (h : HTTPClient) (sobj : SObject)
    (bl : List String) (send : HttpRequest → DoResult)
    (decC : List Nat → Except SfError createSObjectResponse)
    (decG : List Nat → SObject → Except SfError SObject) :
    (sobj.type = "" →
      h.CreateSObject sobj bl send decC = ⟨Except.error SfError.errFailure, sobj, []⟩ ∧
      h.GetSObject sobj send decG = ⟨Except.error SfError.errFailure, sobj, []⟩ ∧
      h.UpdateSObject sobj bl send = ⟨Except.error SfError.errFailure, sobj, []⟩ ∧
      h.DeleteSObject sobj send = ⟨Except.error SfError.errFailure, sobj, []⟩) ∧
    (sobj.id = "" →
      h.GetSObject sobj send decG = ⟨Except.error SfError.errFailure, sobj, []⟩ ∧
      h.DeleteSObject sobj send = ⟨Except.error SfError.errFailure, sobj, []⟩) := by
  constructor
  · intro ht
    have htlen : sobj.type.length = 0 := (strLengthEqZero _).mpr ht
    exact ⟨by simp [HTTPClient.CreateSObject, ht],
      by simp [HTTPClient.GetSObject, htlen],
      by simp [HTTPClient.UpdateSObject, ht],
      by simp [HTTPClient.DeleteSObject, htlen]⟩
  · intro hid
    have hidlen : sobj.id.length = 0 := (strLengthEqZero _).mpr hid
    constructor
    · by_cases ht : sobj.type.length = 0
      · simp [HTTPClient.GetSObject, ht]
      · simp [HTTPClient.GetSObject, ht, hidlen]
    · by_cases ht : sobj.type.length = 0
      · simp [HTTPClient.DeleteSObject, ht]
      · simp [HTTPClient.DeleteSObject, ht, hidlen]

/-- Witness for C2 at concrete records. -/
theorem c2_witness :
    ((HTTPClient.mk "https://sf.example" "v43.0").CreateSObject
        (SObject.mk "" "object1" []) [] sendOk200 decCreateOk
      = ⟨Except.error SfError.errFailure, SObject.mk "" "object1" [], []⟩) ∧
    ((HTTPClient.mk "https://sf.example" "v43.0").DeleteSObject
        (SObject.mk "Case" "" []) sendOk200
      = ⟨Except.error SfError.errFailure, SObject.mk "Case" "" [], []⟩) :=
  ⟨((c2_empty_type_or_id_validates _ _ [] sendOk200 decCreateOk decGetFix).1 rfl).1,
   ((c2_empty_type_or_id_validates _ _ [] sendOk200 decCreateOk decGetFix).2 rfl).2⟩

/-- C9: a successful UpdateSObject leaves the record exactly as it was. -/
theorem c9_update_leaves_record_unchanged (h : HTTPClient) (sobj : SObject)
    (bl : List String) (send : HttpRequest → DoResult)
    (ht : sobj.type ≠ "") (hid : sobj.id ≠ "")
    (hok : (h.UpdateSObject sobj bl send).result = Except.ok ()) :
    (h.UpdateSObject sobj bl send).record = sobj := by
  unfold HTTPClient.UpdateSObject
  rw [if_neg ht, if_neg hid]
  split <;> rfl

/-- Witness for C9 at a concrete successful update. -/
theorem c9_witness :
    ((HTTPClient.mk "https://sf.example" "v43.0").UpdateSObject
        (SObject.mk "Case" "object1" []) [] sendOk200).record
      = SObject.mk "Case" "object1" [] :=
  c9_update_leaves_record_unchanged _ _ [] sendOk200 (by decide) (by decide) rfl

/-- C1: with a non-empty type and a 2xx response decoding to a create
response, CreateSObject assigns the returned id to the record and succeeds
exactly when the response reports success with a non-empty id; otherwise it
returns the failure error and the record's id is untouched. -/
theorem c1_create_assigns_id_after_success_check (h : HTTPClient) (sobj : SObject)
    (bl : List String) (send : HttpRequest → DoResult)
    (decC : List Nat → Except SfError createSObjectResponse)
    (st : Nat) (bb : List Nat) (resp : createSObjectResponse)
    (htype : sobj.type ≠ "")
    (hsend : send (createRequest h sobj bl) = DoResult.ok st bb)
    (h200 : 200 ≤ st) (h300 : st < 300)
    (hdec : decC bb = Except.ok resp) :
    ((resp.success = true ∧ resp.id ≠ "") →
      h.CreateSObject sobj bl send decC
        = ⟨Except.ok (), sobj.SetID resp.id, [createRequest h sobj bl]⟩ ∧
      (h.CreateSObject sobj bl send decC).record.id = resp.id) ∧
    ((resp.success = false ∨ resp.id = "") →
      h.CreateSObject sobj bl send decC
        = ⟨Except.error SfError.errFailure, sobj, [createRequest h sobj bl]⟩ ∧
      (h.CreateSObject sobj bl send decC).record.id = sobj.id) := by
  unfold createRequest at hsend
  have hcall : h.CreateSObject sobj bl send decC
      = if resp.success = false ∨ resp.id = "" then
          ⟨Except.error SfError.errFailure, sobj, [createRequest h sobj bl]⟩
        else ⟨Except.ok (), sobj.SetID resp.id, [createRequest h sobj bl]⟩ := by
    unfold HTTPClient.CreateSObject HTTPClient.request createRequest
    rw [if_neg htype]
    simp only []
    rw [hsend]
    simp only []
    rw [if_neg (by omega : ¬(st < 200 ∨ 300 ≤ st))]
    simp only []
    rw [hdec]
  constructor
  · intro hok
    have hcond : ¬(resp.success = false ∨ resp.id = "") := by
      rintro (hf | hemp)
      · rw [hok.1] at hf
        exact absurd hf (by decide)
      · exact hok.2 hemp
    rw [hcall, if_neg hcond]
    exact ⟨rfl, rfl⟩
  · intro hfail
    rw [hcall, if_pos hfail]
    exact ⟨rfl, rfl⟩

/-- Witness for C1 at a concrete successful and a concrete failed create. -/
theorem c1_witness :
    ((HTTPClient.mk "https://sf.example" "v43.0").CreateSObject
        (SObject.mk "Case" "" []) [] sendOk200 decCreateOk).record.id = "object1" ∧
    ((HTTPClient.mk "https://sf.example" "v43.0").CreateSObject
        (SObject.mk "Case" "" []) [] sendOk200 decCreateFail).record.id = "" :=
  ⟨((c1_create_assigns_id_after_success_check _ _ [] sendOk200 decCreateOk 200 []
      { id := "object1", success := true } (by decide) rfl (by omega) (by omega) rfl).1
      ⟨rfl, by decide⟩).2,
   ((c1_create_assigns_id_after_success_check _ _ [] sendOk200 decCreateFail 200 []
      { id := "object1", success := false } (by decide) rfl (by omega) (by omega) rfl).2
      (Or.inl rfl)).2⟩

/-- C6: for a dispatched request whose transport returns a response, the
shared request helper returns, on a status outside 200-299, the error parsed
from the status code and the full body bytes together with a response whose
body again holds those full bytes; on a 2xx status it returns the response
with no error and the body untouched. -/
theorem c6_request_error_handling (h : HTTPClient) (method url : String)
    (body : Option (List (String × JVal))) (headers : Option Header)
    (send : HttpRequest → DoResult) (st : Nat) (bb : List Nat)
    (hsend : send (buildRequest method url body headers) = DoResult.ok st bb) :
    ((st < 200 ∨ 300 ≤ st) →
      (h.request method url body headers send).1
        = RequestResult.errWithRes { statusCode := st, unread := bb }
            (parseSalesforceError st bb) ∧
      parseSalesforceError st bb = SfError.salesforce st bb) ∧
    (200 ≤ st → st < 300 →
      (h.request method url body headers send).1
        = RequestResult.ok { statusCode := st, unread := bb }) := by
  constructor
  · intro hbad
    refine ⟨?_, rfl⟩
    unfold HTTPClient.request
    simp only []
    rw [hsend]
    simp only []
    rw [if_pos hbad]
  · intro h200 h300
    unfold HTTPClient.request
    simp only []
    rw [hsend]
    simp only []
    rw [if_neg (by omega : ¬(st < 200 ∨ 300 ≤ st))]

/-- Witness for C6 at a concrete 404 and a concrete 200 response. -/
theorem c6_witness :
    (((HTTPClient.mk "https://sf.example" "v43.0").request "GET" "u" none none
        sendErr404).1
      = RequestResult.errWithRes { statusCode := 404, unread := [7] }
          (parseSalesforceError 404 [7])) ∧
    (((HTTPClient.mk "https://sf.example" "v43.0").request "GET" "u" none none
        sendOk200).1
      = RequestResult.ok { statusCode := 200, unread := [] }) :=
  ⟨((c6_request_error_handling _ "GET" "u" none none sendErr404 404 [7] rfl).1
      (by omega)).1,
   (c6_request_error_handling _ "GET" "u" none none sendOk200 200 [] rfl).2
      (by omega) (by omega)⟩

/-- C7: with no caller headers the dispatched request carries exactly the
default Content-Type application/json; caller-supplied headers are used as
the complete header set, with Content-Type defaulted only when the caller's
value is empty, every other caller header passing through untouched. -/
theorem c7_header_defaulting (h : HTTPClient) (hs : Header)
    (k method url : String) (body : Option (List (String × JVal)))
    (headers : Option Header) (send : HttpRequest → DoResult) :
    effectiveHeaders none = [("Content-Type", "application/json")] ∧
    (Header.get hs "Content-Type" ≠ "" → effectiveHeaders (some hs) = hs) ∧
    (Header.get hs "Content-Type" = "" →
      effectiveHeaders (some hs) = Header.set hs "Content-Type" "application/json") ∧
    (k ≠ "Content-Type" → Header.get (effectiveHeaders (some hs)) k = Header.get hs k) ∧
    (h.request method url body headers send).2.header = effectiveHeaders headers := by
  refine ⟨rfl, ?_, ?_, ?_, ?_⟩
  · intro hct
    have : (Header.get hs "Content-Type").length ≠ 0 := by
      intro he
      exact hct ((strLengthEqZero _).mp he)
    unfold effectiveHeaders
    simp only []
    rw [if_neg this]
  · intro hct
    have : (Header.get hs "Content-Type").length = 0 := (strLengthEqZero _).mpr hct
    unfold effectiveHeaders
    simp only []
    rw [if_pos this]
  · intro hk
    by_cases hct : (Header.get hs "Content-Type").length = 0
    · unfold effectiveHeaders
      simp only []
      rw [if_pos hct]
      exact headerGetSetNe hs "Content-Type" "application/json" k hk
    · unfold effectiveHeaders
      simp only []
      rw [if_neg hct]
  · unfold HTTPClient.request
    simp only []
    split
    · rfl
    · split <;> rfl

/-- Witness for C7 at concrete header sets. -/
theorem c7_witness :
    (effectiveHeaders (some [("Content-Type", "text/xml")]) = [("Content-Type", "text/xml")]) ∧
    (effectiveHeaders (some [("Accept", "application/json")])
      = Header.set [("Accept", "application/json")] "Content-Type" "application/json") ∧
    (Header.get (effectiveHeaders (some [("Accept", "application/json")])) "Accept"
      = Header.get [("Accept", "application/json")] "Accept") :=
  ⟨(c7_header_defaulting (HTTPClient.mk "b" "v") [("Content-Type", "text/xml")] "k" "GET" "u"
      none none sendOk200).2.1 (by decide),
   (c7_header_defaulting (HTTPClient.mk "b" "v") [("Accept", "application/json")] "k" "GET" "u"
      none none sendOk200).2.2.1 (by decide),
   (c7_header_defaulting (HTTPClient.mk "b" "v") [("Accept", "application/json")] "Accept" "GET"
      "u" none none sendOk200).2.2.2.1 (by decide)⟩

/-- Projecting keys commutes with the blacklist filter. -/
theorem mapFstFilter (fields : List (String × JVal)) (bl : List String) :
    (fields.filter (fun kv => !(bl.contains kv.fst))).map Prod.fst
      = (fields.map Prod.fst).filter (fun k2 => !(bl.contains k2)) := by
  induction fields with
  | nil => rfl
  | cons kv rest ih =>
    obtain ⟨k2, v⟩ := kv
    by_cases hb : (!(bl.contains k2)) = true
    · simp only [List.filter_cons, List.map_cons, hb, if_pos, List.map_cons, ih]
    · simp only [List.filter_cons, List.map_cons]
      rw [if_neg hb, if_neg hb, ih]

/-- C8: the redacted copy keeps exactly the keys of the source bag that are
not excluded, preserving each retained key's value; the source record itself
is a pure value and is untouched. -/
theorem c8_redacted_copy (s : SObject) (bl : List String) (k : String) :
    ((s.makeCopy bl).map Prod.fst
      = (s.fields.map Prod.fst).filter (fun k2 => !(bl.contains k2))) ∧
    (bl.contains k = true → lookupField (s.makeCopy bl) k = none) ∧
    (bl.contains k = false →
      lookupField (s.makeCopy bl) k = lookupField s.fields k) := by
  refine ⟨mapFstFilter s.fields bl, ?_, ?_⟩
  · intro hk
    exact lookupFilterOfFalse s.fields _ k (fun v => by
      show (!(bl.contains k)) = false
      rw [hk]
      rfl)
  · intro hk
    exact lookupFilterOfTrue s.fields _ k (fun v => by
      show (!(bl.contains k)) = true
      rw [hk]
      rfl)

/-- Witness for C8 at a concrete record and blacklist. -/
theorem c8_witness :
    (lookupField ((SObject.mk "Case" "object1"
        [("attributes", JVal.null), ("Name", JVal.str "x")]).makeCopy ["attributes"])
      "attributes" = none) ∧
    (lookupField ((SObject.mk "Case" "object1"
        [("attributes", JVal.null), ("Name", JVal.str "x")]).makeCopy ["attributes"])
      "Name" = lookupField [("attributes", JVal.null), ("Name", JVal.str "x")] "Name") :=
  ⟨(c8_redacted_copy (SObject.mk "Case" "object1"
      [("attributes", JVal.null), ("Name", JVal.str "x")]) ["attributes"] "attributes").2.1
      (by decide),
   (c8_redacted_copy (SObject.mk "Case" "object1"
      [("attributes", JVal.null), ("Name", JVal.str "x")]) ["attributes"] "Name").2.2
      (by decide)⟩

/-- C10: DownloadFile touches the filesystem only after the request helper
returns without error: a transport error or a non-2xx status is returned
as-is with no create and no write, while on a 2xx response the destination is
created and the body written to it. -/
theorem c10_download_creates_only_after_success (h : HTTPClient)
    (cvid fp : String) (send : HttpRequest → DoResult)
    (createResult : Except SfError Unit) (e : SfError) (st : Nat) (bb : List Nat) :
    (send (downloadRequest h cvid) = DoResult.err e →
      h.DownloadFile cvid fp send createResult = (Except.error e, [])) ∧
    (send (downloadRequest h cvid) = DoResult.ok st bb → (st < 200 ∨ 300 ≤ st) →
      h.DownloadFile cvid fp send createResult
        = (Except.error (parseSalesforceError st bb), [])) ∧
    (send (downloadRequest h cvid) = DoResult.ok st bb → 200 ≤ st → st < 300 →
      createResult = Except.ok () →
      h.DownloadFile cvid fp send createResult
        = (Except.ok (), [FsOp.create fp, FsOp.write fp bb])) := by
  refine ⟨?_, ?_, ?_⟩
  · intro hsend
    unfold downloadRequest at hsend
    unfold HTTPClient.DownloadFile HTTPClient.request
    simp only []
    rw [hsend]
  · intro hsend hbad
    unfold downloadRequest at hsend
    unfold HTTPClient.DownloadFile HTTPClient.request
    simp only []
    rw [hsend]
    simp only []
    rw [if_pos hbad]
  · intro hsend h200 h300 hcreate
    unfold downloadRequest at hsend
    unfold HTTPClient.DownloadFile HTTPClient.request
    simp only []
    rw [hsend]
    simp only []
    rw [if_neg (by omega : ¬(st < 200 ∨ 300 ≤ st))]
    simp only []
    rw [hcreate]

/-- Witness for C10 at concrete transports. -/
theorem c10_witness :
    ((HTTPClient.mk "https://sf.example" "v43.0").DownloadFile "cv1" "/tmp/out"
        (fun _ => DoResult.err (SfError.transport "refused")) (Except.ok ())
      = (Except.error (SfError.transport "refused"), [])) ∧
    ((HTTPClient.mk "https://sf.example" "v43.0").DownloadFile "cv1" "/tmp/out"
        sendErr404 (Except.ok ())
      = (Except.error (parseSalesforceError 404 [7]), [])) ∧
    ((HTTPClient.mk "https://sf.example" "v43.0").DownloadFile "cv1" "/tmp/out"
        sendOk200 (Except.ok ())
      = (Except.ok (), [FsOp.create "/tmp/out", FsOp.write "/tmp/out" []])) :=
  ⟨(c10_download_creates_only_after_success _ "cv1" "/tmp/out"
      (fun _ => DoResult.err (SfError.transport "refused")) (Except.ok ())
      (SfError.transport "refused") 200 []).1 rfl,
   (c10_download_creates_only_after_success _ "cv1" "/tmp/out" sendErr404 (Except.ok ())
      (SfError.transport "refused") 404 [7]).2.1 rfl (by omega),
   (c10_download_creates_only_after_success _ "cv1" "/tmp/out" sendOk200 (Except.ok ())
      (SfError.transport "refused") 200 []).2.2 rfl (by omega) (by omega) rfl⟩

/-- Query always dispatches exactly one GET to its computed URL. -/
theorem queryRequestsEq (h : HTTPClient) (q tok : String)
    (send : HttpRequest → DoResult) (dec : List Nat → Except SfError QueryResult) :
    (h.Query q tok send dec).2
      = [buildRequest "GET" (queryRequestURL h q tok) none none] := by
  unfold HTTPClient.Query HTTPClient.request
  simp only []
  cases hsend : send (buildRequest "GET" (queryRequestURL h q tok) none none) with
  | err e => rfl
  | ok st bb =>
    simp only []
    by_cases hst : st < 200 ∨ 300 ≤ st
    · rw [if_pos hst]
    · rw [if_neg hst]
      simp only []
      cases dec bb <;> rfl

/-- C3 counterexample: a continuation token containing a question mark is
appended verbatim, so the resulting URL does carry a q parameter; and a query
string containing an ampersand survives PathEscape unescaped, so its q
parameter decodes to a strict prefix of the original query. -/
theorem c3_counterexample :
    (getQueryParam (queryRequestURL (HTTPClient.mk "https://sf.example" "v43.0")
        "ignored" "?q=x") "q" ≠ none) ∧
    (getQueryParam (queryRequestURL (HTTPClient.mk "https://sf.example" "v43.0")
        "a&b" "") "q" ≠ some (stringToBytes "a&b")) := by
  decide

/-- C3 amended: with a non-empty continuation token the GET goes to exactly
the token appended to the base URL, and when neither base URL nor token
contains a question mark that URL has no q parameter; with an empty token and
a non-empty query string free of ampersand and plus bytes (and no question
mark in base URL or API version) the GET goes to the versioned query endpoint
and its q parameter decodes back to the original query bytes. -/
theorem c3_query_get_url (h : HTTPClient) (query tok : String)
    (send : HttpRequest → DoResult) (dec : List Nat → Except SfError QueryResult)
    (hbase : '?' ∉ h.baseURL.data) :
    (tok ≠ "" →
      queryRequestURL h query tok = h.baseURL ++ tok ∧
      (h.Query query tok send dec).2
        = [buildRequest "GET" (h.baseURL ++ tok) none none] ∧
      ('?' ∉ tok.data → getQueryParam (h.baseURL ++ tok) "q" = none)) ∧
    (tok = "" → query ≠ "" → '?' ∉ h.apiVersion.data →
      38 ∉ stringToBytes query → 43 ∉ stringToBytes query →
      (h.Query query tok send dec).2
        = [buildRequest "GET" (queryRequestURL h query "") none none] ∧
      getQueryParam (queryRequestURL h query "") "q" = some (stringToBytes query)) := by
  constructor
  · intro htok
    have hlen : 0 < tok.length := by
      rcases Nat.eq_zero_or_pos tok.length with h0 | hp
      · exact absurd ((strLengthEqZero tok).mp h0) htok
      · exact hp
    have hurl : queryRequestURL h query tok = h.baseURL ++ tok := by
      unfold queryRequestURL
      rw [if_pos hlen]
    refine ⟨hurl, ?_, ?_⟩
    · rw [queryRequestsEq, hurl]
    · intro htq
      unfold getQueryParam
      rw [strDataAppend, afterFirstOfNotMem _ _ (by
        rw [List.mem_append]
        rintro (hm | hm)
        · exact hbase hm
        · exact htq hm)]
  · intro htok hq hv hamp hplus
    subst htok
    have hurl : queryRequestURL h query ""
        = h.baseURL ++ ("/services/data/" ++ h.apiVersion ++ "/query?q="
            ++ pathEscape query) := by
      unfold queryRequestURL
      rw [if_neg (by decide : ¬ 0 < ("" : String).length)]
    refine ⟨queryRequestsEq h query "" send dec, ?_⟩
    rw [hurl]
    exact getQueryParamQueryURL h.baseURL h.apiVersion query hbase hv hamp hplus

/-- Witness for C3 amended at a concrete query and a concrete token. -/
theorem c3_witness :
    (getQueryParam (queryRequestURL (HTTPClient.mk "https://sf.example" "v43.0")
        "SELECT Id FROM Account" "") "q"
      = some (stringToBytes "SELECT Id FROM Account")) ∧
    (getQueryParam ((HTTPClient.mk "https://sf.example" "v43.0").baseURL ++ "/foo/bar")
        "q" = none) :=
  ⟨((c3_query_get_url (HTTPClient.mk "https://sf.example" "v43.0")
      "SELECT Id FROM Account" "" sendOk200 decQueryFix (by decide)).2 rfl (by decide)
      (by decide) (by decide) (by decide)).2,
   ((c3_query_get_url (HTTPClient.mk "https://sf.example" "v43.0")
      "SELECT Id FROM Account" "/foo/bar" sendOk200 decQueryFix (by decide)).1
      (by decide)).2.2 (by decide)⟩
